import Mathlib

/-!
Shallow embedding of the R3F character-controller repository.

Conventions:
* JavaScript numbers are modelled as exact rationals (`ℚ`); `Math.PI` is the
  exact value of the IEEE-754 double `3.141592653589793`, namely
  `884279719003555 / 2^48`.
* `Date.now()` timestamps are rationals in milliseconds; every call inside one
  frame callback reads the same instant (the source calls it several times
  within microseconds of each other).
* Geometric quantities that the source obtains from the Three.js / Rapier
  collaborators (normalized camera-relative move direction, `atan2` results,
  ground-plane distances, whisker-steered nav direction) enter the tick
  function as inputs: the spec places that math outside the core (§6).
-/

/-- Exact rational value of the IEEE-754 double `Math.PI`. -/
def jsPI : ℚ := 884279719003555 / 281474976710656

/-- Leva default `walkSpeed` (types.ts line 117). -/
def walkSpeed : ℚ := 4

/-- Leva default `runSpeed` (types.ts line 118). -/
def runSpeed : ℚ := 7

/-- Leva default `rotationSpeed` (types.ts line 119). -/
def rotationSpeed : ℚ := 12

/-- Leva default `jumpForce` (types.ts line 120). -/
def jumpForce : ℚ := 11/2

/-- First wrap loop of the smooth-rotation code
(`while (angleDiff > Math.PI) angleDiff -= Math.PI * 2;`, types.ts line 509). -/
def wrapHi (d : ℚ) : ℚ :=
  if h : jsPI < d then wrapHi (d - 2 * jsPI) else d
termination_by (⌈d - jsPI⌉).toNat
decreasing_by
  have h6 : (6 : ℚ) ≤ 2 * jsPI := by norm_num [jsPI]
  have h1 : (0 : ℤ) < ⌈d - jsPI⌉ := by
    rw [Int.ceil_pos]; linarith
  have h2 : ⌈d - 2 * jsPI - jsPI⌉ ≤ ⌈d - jsPI⌉ - 6 := by
    have hle : d - 2 * jsPI - jsPI ≤ (d - jsPI) - (6 : ℤ) := by push_cast; linarith
    calc ⌈d - 2 * jsPI - jsPI⌉ ≤ ⌈(d - jsPI) - (6 : ℤ)⌉ := Int.ceil_le_ceil hle
      _ = ⌈d - jsPI⌉ - 6 := Int.ceil_sub_int _ _
  omega

/-- Second wrap loop of the smooth-rotation code
(`while (angleDiff < -Math.PI) angleDiff += Math.PI * 2;`, types.ts line 510). -/
def wrapLo (d : ℚ) : ℚ :=
  if h : d < -jsPI then wrapLo (d + 2 * jsPI) else d
termination_by (⌈-jsPI - d⌉).toNat
decreasing_by
  have h6 : (6 : ℚ) ≤ 2 * jsPI := by norm_num [jsPI]
  have h1 : (0 : ℤ) < ⌈-jsPI - d⌉ := by
    rw [Int.ceil_pos]; linarith
  have h2 : ⌈-jsPI - (d + 2 * jsPI)⌉ ≤ ⌈-jsPI - d⌉ - 6 := by
    have hle : -jsPI - (d + 2 * jsPI) ≤ (-jsPI - d) - (6 : ℤ) := by push_cast; linarith
    calc ⌈-jsPI - (d + 2 * jsPI)⌉ ≤ ⌈(-jsPI - d) - (6 : ℤ)⌉ := Int.ceil_le_ceil hle
      _ = ⌈-jsPI - d⌉ - 6 := Int.ceil_sub_int _ _
  omega

/-- The two wrap loops in sequence: reduction of an angle difference applied
before the rotation gain (types.ts lines 508-510, also 279-280). -/
def wrapAngle (d : ℚ) : ℚ := wrapLo (wrapHi d)

/-- One facing update:
`currentRotation.current += angleDiff * rotationSpeed * delta` after wrapping
(types.ts line 511). -/
def facingStep (cur target gain delta : ℚ) : ℚ :=
  cur + wrapAngle (target - cur) * gain * delta

theorem wrapHi_le (d : ℚ) : wrapHi d ≤ jsPI := by
  induction d using wrapHi.induct with
  | case1 d h ih => rw [wrapHi]; simpa [h] using ih
  | case2 d h => rw [wrapHi]; simpa [h] using le_of_not_lt h

theorem wrapLo_ge (d : ℚ) : -jsPI ≤ wrapLo d := by
  induction d using wrapLo.induct with
  | case1 d h ih => rw [wrapLo]; simpa [h] using ih
  | case2 d h => rw [wrapLo]; simpa [h] using le_of_not_lt h

theorem wrapLo_le (d : ℚ) (hd : d ≤ jsPI) : wrapLo d ≤ jsPI := by
  induction d using wrapLo.induct with
  | case1 d h ih =>
    have hpi : (0 : ℚ) < jsPI := by norm_num [jsPI]
    rw [wrapLo]
    simpa [h] using ih (by linarith)
  | case2 d h => rw [wrapLo]; simpa [h] using hd

theorem wrapAngle_mem (d : ℚ) : -jsPI ≤ wrapAngle d ∧ wrapAngle d ≤ jsPI :=
  ⟨wrapLo_ge _, wrapLo_le _ (wrapHi_le d)⟩

/-! ### Locomotion state machine (types.ts, `Character` useFrame body, lines 257-541) -/

/-- Animation labels occurring in the `Character` of types.ts.  The source
stores them as strings ('Idle', 'Walking', 'Run', 'Jump', 'RunJump', 'land',
'Sitting', 'Sit'). -/
inductive Anim where
  | Idle | Walking | Run | Jump | RunJump | land | Sitting | Sit
deriving DecidableEq

/-- The mutable refs of the `Character` component that the per-frame callback
reads and writes (types.ts lines 129-165).  `hasNavTarget` abstracts
`currentNavTarget.current !== null`; the target's coordinates reach the tick
only through the externally computed `navDistance` / `navDirX/Z` inputs. -/
structure CharState where
  isOnFloor : Bool
  wasOnFloor : Bool
  isLanding : Bool
  jumpType : Anim
  jumpCooldown : ℚ
  animation : Anim
  currentRotation : ℚ
  targetRotation : ℚ
  hasNavTarget : Bool
  stuckTime : ℚ
  lastUpdate : ℚ
deriving DecidableEq

/-- Per-tick inputs: keyboard flags, props, the frame delta (seconds),
`Date.now()` (ms), the physics reads, and the geometric quantities the source
computes with Three.js/Rapier (camera-relative move direction, distances,
whisker-steered nav direction, `atan2` results). -/
structure CharInput where
  forward : Bool
  backward : Bool
  left : Bool
  right : Bool
  jump : Bool
  run : Bool
  isSitting : Bool
  hasSitPose : Bool
  hasOnStopSitting : Bool
  hasOnUpdate : Bool
  hasOnTargetReached : Bool
  delta : ℚ
  now : ℚ
  vy : ℚ
  moveDirX : ℚ
  moveDirZ : ℚ
  navDistance : ℚ
  navDirX : ℚ
  navDirZ : ℚ
  distMoved : ℚ
  atanMove : ℚ
  atanNav : ℚ
  sitRotation : ℚ
deriving DecidableEq

/-- Observable effects of one tick: calls into the physics body, the
`onTargetReached` / `onStopSitting` callbacks, and the throttled `onUpdate`
network emission (payload abstracted to its animation label). -/
structure CharFx where
  stoodUp : Bool
  linvelSet : Option (ℚ × ℚ × ℚ)
  angvelSet : Bool
  translationSet : Bool
  targetReached : Bool
  emitted : Option Anim
  jumped : Bool
  landed : Bool
deriving DecidableEq

/-- Vertical component written by `setLinvel`, when the tick wrote one. -/
def CharFx.vyWritten (fx : CharFx) : Option ℚ :=
  fx.linvelSet.map (fun v => v.2.1)

/-- Landing trigger (types.ts lines 336-343):
`!wasOnFloor.current && isOnFloor.current` and `currentYVelocity < -2.0`. -/
def landedFlag (s : CharState) (inp : CharInput) : Bool :=
  !s.wasOnFloor && s.isOnFloor && decide (inp.vy < -2)

/-- Jump guard (types.ts line 475):
`jump && isOnFloor.current && !isLanding.current && Date.now() - jumpCooldown.current > 500`.
`landing1` is the value of `isLanding.current` after the landing trigger ran. -/
def canJumpFlag (s : CharState) (inp : CharInput) (landing1 : Bool) : Bool :=
  inp.jump && s.isOnFloor && !landing1 && decide (500 < inp.now - s.jumpCooldown)

/-- `const isMoving = Math.abs(moveX) > 0.1 || Math.abs(moveZ) > 0.1`
(types.ts line 483). -/
def movingFlag (mx mz : ℚ) : Bool :=
  decide (0.1 < |mx|) || decide (0.1 < |mz|)

/-- `Date.now() - lastUpdateRef.current > 50` (types.ts lines 285 and 532). -/
def shouldEmit (now last : ℚ) : Bool := decide (50 < now - last)

/-- Results of the movement section (types.ts lines 346-471): desired
velocity, the provisional animation label, and the nav-target bookkeeping. -/
structure MoveOut where
  moveX : ℚ
  moveZ : ℚ
  desiredSpeed : ℚ
  anim : Anim
  nav : Bool
  stuck : ℚ
  tgtRot : ℚ
  reached : Bool
deriving DecidableEq

/-- Movement section (types.ts lines 346-471).  Branches, in source order:
landing lock, manual input (cancels the nav target), auto-nav (stuck
accounting, arrival/abandonment), idle. -/
def moveStage (s : CharState) (inp : CharInput) (landing1 : Bool) : MoveOut :=
  if landing1 then
    { moveX := 0, moveZ := 0, desiredSpeed := 0, anim := Anim.land,
      nav := s.hasNavTarget, stuck := s.stuckTime, tgtRot := s.targetRotation,
      reached := false }
  else if inp.forward || inp.backward || inp.left || inp.right then
    let ds := if inp.run then runSpeed else walkSpeed
    { moveX := inp.moveDirX * ds, moveZ := inp.moveDirZ * ds, desiredSpeed := ds,
      anim := if s.isOnFloor then (if inp.run then Anim.Run else Anim.Walking)
              else s.animation,
      nav := false, stuck := s.stuckTime, tgtRot := inp.atanMove, reached := false }
  else if s.hasNavTarget then
    let stuck1 := if inp.distMoved < 0.01 * runSpeed then s.stuckTime + inp.delta else 0
    if 0.2 < inp.navDistance ∧ stuck1 < 2 then
      { moveX := inp.navDirX * runSpeed, moveZ := inp.navDirZ * runSpeed,
        desiredSpeed := runSpeed,
        anim := if s.isOnFloor then Anim.Run else s.animation,
        nav := true, stuck := stuck1, tgtRot := inp.atanNav, reached := false }
    else
      { moveX := 0, moveZ := 0, desiredSpeed := 0,
        anim := if s.isOnFloor then Anim.Idle else s.animation,
        nav := false, stuck := 0, tgtRot := s.targetRotation,
        reached := inp.hasOnTargetReached &&
          (decide (inp.navDistance < 1.5) || decide (2 < stuck1)) }
  else
    { moveX := 0, moveZ := 0, desiredSpeed := 0,
      anim := if s.isOnFloor then Anim.Idle else s.animation,
      nav := s.hasNavTarget, stuck := s.stuckTime, tgtRot := s.targetRotation,
      reached := false }

/-- The non-sitting part of the frame callback (types.ts lines 313-541,
camera math omitted): landing trigger, movement section, jump, airborne
animation override, `setLinvel`, smooth rotation, throttled network emit.
The 200 ms `setTimeout` that clears `isLanding` runs outside the tick and is
not part of this step. -/
def mainTick (s : CharState) (inp : CharInput) : CharState × CharFx :=
  let landed := landedFlag s inp
  let landing1 := landed || s.isLanding
  let wasOnFloor1 := s.isOnFloor
  let m := moveStage s inp landing1
  let canJump := canJumpFlag s inp landing1
  let jumpType1 :=
    if canJump then (if inp.run && movingFlag m.moveX m.moveZ then Anim.RunJump else Anim.Jump)
    else s.jumpType
  let vy1 := if canJump then jumpForce else inp.vy
  let landing2 := if canJump then false else landing1
  let onFloor2 := if canJump then false else s.isOnFloor
  let cooldown1 := if canJump then inp.now else s.jumpCooldown
  let anim3 := if canJump then jumpType1 else m.anim
  let anim4 := if onFloor2 then anim3 else jumpType1
  let rot1 :=
    if 0 < m.desiredSpeed ∨ m.nav = true then
      facingStep s.currentRotation m.tgtRot rotationSpeed inp.delta
    else s.currentRotation
  let doEmit := inp.hasOnUpdate && shouldEmit inp.now s.lastUpdate
  ({ isOnFloor := onFloor2, wasOnFloor := wasOnFloor1, isLanding := landing2,
     jumpType := jumpType1, jumpCooldown := cooldown1, animation := anim4,
     currentRotation := rot1, targetRotation := m.tgtRot, hasNavTarget := m.nav,
     stuckTime := m.stuck, lastUpdate := if doEmit then inp.now else s.lastUpdate },
   { stoodUp := false, linvelSet := some (m.moveX, vy1, m.moveZ),
     angvelSet := false, translationSet := false, targetReached := m.reached,
     emitted := if doEmit then some anim4 else none,
     jumped := canJump, landed := landed })

/-- The sitting branch (types.ts lines 264-311): stand-up early return on any
input, otherwise physics lock, snappier (gain 10) rotation toward the seat
orientation, and the throttled emit.  The emitted label's clip fallback
('Sitting' / 'Sit' / 'Idle') depends on the loaded clip set, an external
collaborator; it is abstracted to `Anim.Sitting`. -/
def sitTick (s : CharState) (inp : CharInput) : CharState × CharFx :=
  if inp.hasOnStopSitting &&
      (inp.forward || inp.backward || inp.left || inp.right || inp.jump) then
    (s, { stoodUp := true, linvelSet := none, angvelSet := false,
          translationSet := false, targetReached := false, emitted := none,
          jumped := false, landed := false })
  else
    let rot1 := s.currentRotation + wrapAngle (inp.sitRotation - s.currentRotation) * 10 * inp.delta
    let doEmit := inp.hasOnUpdate && shouldEmit inp.now s.lastUpdate
    ({ s with currentRotation := rot1,
              lastUpdate := if doEmit then inp.now else s.lastUpdate },
     { stoodUp := false, linvelSet := some (0, 0, 0), angvelSet := true,
       translationSet := true, targetReached := false,
       emitted := if doEmit then some Anim.Sitting else none,
       jumped := false, landed := false })

/-- One full frame callback (types.ts lines 257-541). -/
def charTick (s : CharState) (inp : CharInput) : CharState × CharFx :=
  if inp.isSitting && inp.hasSitPose then sitTick s inp else mainTick s inp

theorem charTick_of_not_sitting (s : CharState) (inp : CharInput)
    (h : inp.isSitting = false) : charTick s inp = mainTick s inp := by
  simp [charTick, h]

theorem landedFlag_eq_true_iff (s : CharState) (inp : CharInput) :
    landedFlag s inp = true ↔
      s.wasOnFloor = false ∧ s.isOnFloor = true ∧ inp.vy < -2 := by
  simp [landedFlag, and_assoc]

/-- C6: on a non-sitting tick, the landing trigger fires if and only if the
previous tick was airborne, the current tick is grounded, and the vertical
velocity is more negative than -2.0; when it fires, the tick ends in the
Landing state with the 'land' animation.  In particular a grounded transition
with vertical velocity at or above -2.0 does not enter Landing. -/
theorem landing_trigger_iff (s : CharState) (inp : CharInput)
    (h : inp.isSitting = false) :
    ((charTick s inp).2.landed = true ↔
      s.wasOnFloor = false ∧ s.isOnFloor = true ∧ inp.vy < -2) ∧
    ((charTick s inp).2.landed = true →
      (charTick s inp).1.isLanding = true ∧
      (charTick s inp).1.animation = Anim.land) := by
  rw [charTick_of_not_sitting s inp h]
  constructor
  · simpa [mainTick] using landedFlag_eq_true_iff s inp
  · intro hl
    have hland : landedFlag s inp = true := by simpa [mainTick] using hl
    obtain ⟨hw, hf, hv⟩ := (landedFlag_eq_true_iff s inp).mp hland
    simp [mainTick, moveStage, canJumpFlag, hland, hf]

def sW6 : CharState :=
  { isOnFloor := true, wasOnFloor := false, isLanding := false,
    jumpType := Anim.Jump, jumpCooldown := 0, animation := Anim.Jump,
    currentRotation := 0, targetRotation := 0, hasNavTarget := false,
    stuckTime := 0, lastUpdate := 0 }

def iW6 : CharInput :=
  { forward := false, backward := false, left := false, right := false,
    jump := false, run := false, isSitting := false, hasSitPose := false,
    hasOnStopSitting := false, hasOnUpdate := false, hasOnTargetReached := false,
    delta := 1/60, now := 1000, vy := -3, moveDirX := 0, moveDirZ := 0,
    navDistance := 0, navDirX := 0, navDirZ := 0, distMoved := 0,
    atanMove := 0, atanNav := 0, sitRotation := 0 }

theorem landing_trigger_iff_witness :
    (charTick sW6 iW6).2.landed = true ∧ (charTick sW6 iW6).1.animation = Anim.land := by
  have h := landing_trigger_iff sW6 iW6 rfl
  have hl : (charTick sW6 iW6).2.landed = true := h.1.mpr (by decide)
  exact ⟨hl, (h.2 hl).2⟩

theorem canJumpFlag_eq_true_iff (s : CharState) (inp : CharInput) (l1 : Bool) :
    canJumpFlag s inp l1 = true ↔
      inp.jump = true ∧ s.isOnFloor = true ∧ l1 = false ∧
        500 < inp.now - s.jumpCooldown := by
  simp [canJumpFlag, and_assoc]

/-- C5: a jump fires only while grounded, not landing, and with at least
500 ms since the last jump; when it fires the tick writes the fixed jump
impulse as vertical velocity, forces grounded to false, stamps the cooldown,
and picks RunJump exactly when the run flag is held and the horizontal move
is non-negligible; a jump request with at most 500 ms elapsed changes no
velocity and leaves the cooldown stamp untouched. -/
theorem jump_rules (s : CharState) (inp : CharInput) (h : inp.isSitting = false) :
    ((charTick s inp).2.jumped = true →
        s.isOnFloor = true ∧ s.isLanding = false ∧
        (charTick s inp).2.landed = false ∧ 500 ≤ inp.now - s.jumpCooldown) ∧
    ((charTick s inp).2.jumped = true →
        (charTick s inp).2.vyWritten = some jumpForce ∧
        (charTick s inp).1.isOnFloor = false ∧
        (charTick s inp).1.jumpCooldown = inp.now ∧
        (charTick s inp).1.animation =
          (if inp.run && movingFlag (moveStage s inp false).moveX (moveStage s inp false).moveZ
           then Anim.RunJump else Anim.Jump)) ∧
    (inp.jump = true → inp.now - s.jumpCooldown ≤ 500 →
        (charTick s inp).2.jumped = false ∧
        (charTick s inp).2.vyWritten = some inp.vy ∧
        (charTick s inp).1.jumpCooldown = s.jumpCooldown) := by
  rw [charTick_of_not_sitting s inp h]
  refine ⟨?_, ?_, ?_⟩
  · intro hj
    have hc : canJumpFlag s inp (landedFlag s inp || s.isLanding) = true := by
      simpa [mainTick] using hj
    obtain ⟨h1, h2, h3, h4⟩ := (canJumpFlag_eq_true_iff s inp _).mp hc
    have hor := Bool.or_eq_false_iff.mp h3
    exact ⟨h2, hor.2, by simpa [mainTick] using hor.1, le_of_lt h4⟩
  · intro hj
    have hc : canJumpFlag s inp (landedFlag s inp || s.isLanding) = true := by
      simpa [mainTick] using hj
    obtain ⟨h1, h2, h3, h4⟩ := (canJumpFlag_eq_true_iff s inp _).mp hc
    rw [h3] at hc
    simp [mainTick, CharFx.vyWritten, h3, hc]
  · intro hj hc500
    have hd : (500 < inp.now - s.jumpCooldown) = False := eq_false (not_lt.mpr hc500)
    have hnc : canJumpFlag s inp (landedFlag s inp || s.isLanding) = false := by
      simp [canJumpFlag, hd]
    simp [mainTick, CharFx.vyWritten, hnc]

def sW5 : CharState :=
  { isOnFloor := true, wasOnFloor := true, isLanding := false,
    jumpType := Anim.Jump, jumpCooldown := 0, animation := Anim.Idle,
    currentRotation := 0, targetRotation := 0, hasNavTarget := false,
    stuckTime := 0, lastUpdate := 0 }

def iW5 : CharInput :=
  { forward := false, backward := false, left := false, right := false,
    jump := true, run := false, isSitting := false, hasSitPose := false,
    hasOnStopSitting := false, hasOnUpdate := false, hasOnTargetReached := false,
    delta := 1/60, now := 1000, vy := 0, moveDirX := 0, moveDirZ := 0,
    navDistance := 0, navDirX := 0, navDirZ := 0, distMoved := 0,
    atanMove := 0, atanNav := 0, sitRotation := 0 }

def iW5b : CharInput :=
  { iW5 with now := 400 }

theorem jump_rules_witness :
    ((charTick sW5 iW5).2.jumped = true ∧
      (charTick sW5 iW5).2.vyWritten = some jumpForce ∧
      (charTick sW5 iW5).1.isOnFloor = false) ∧
    ((charTick sW5 iW5b).2.jumped = false ∧
      (charTick sW5 iW5b).2.vyWritten = some iW5b.vy) := by
  have h := jump_rules sW5 iW5 rfl
  have h' := jump_rules sW5 iW5b rfl
  have hj : (charTick sW5 iW5).2.jumped = true := by
    norm_num [charTick, mainTick, canJumpFlag, landedFlag, sW5, iW5]
  have hno := h'.2.2 rfl (by norm_num [iW5b, iW5, sW5])
  exact ⟨⟨hj, ((h.2.1) hj).1, ((h.2.1) hj).2.1⟩, hno.1, hno.2.1⟩

def sC7 : CharState :=
  { isOnFloor := true, wasOnFloor := true, isLanding := false,
    jumpType := Anim.Jump, jumpCooldown := 0, animation := Anim.Run,
    currentRotation := 0, targetRotation := 0, hasNavTarget := true,
    stuckTime := 3/2, lastUpdate := 0 }

def iC7 : CharInput :=
  { forward := false, backward := false, left := false, right := false,
    jump := false, run := false, isSitting := false, hasSitPose := false,
    hasOnStopSitting := false, hasOnUpdate := false, hasOnTargetReached := true,
    delta := 1/2, now := 0, vy := 0, moveDirX := 0, moveDirZ := 0,
    navDistance := 3, navDirX := 1, navDirZ := 0, distMoved := 0,
    atanMove := 0, atanNav := 0, sitRotation := 0 }

/-- C7 counterexample: navigating with remaining distance 3 (> 0.2, and ≥ 1.5)
and a stuck timer that reaches exactly 2.0 s on this tick
(1.5 s + 0.5 s delta), the tick clears the target and returns to Idle but
does NOT fire the target-reached callback (`stuckTime.current > 2.0` is
strict in the source, types.ts line 456). -/
theorem nav_stuck_exact_boundary_cex :
    sC7.hasNavTarget = true ∧ sC7.stuckTime + iC7.delta = 2 ∧
    (0.2 : ℚ) < iC7.navDistance ∧ iC7.hasOnTargetReached = true ∧
    (charTick sC7 iC7).1.hasNavTarget = false ∧
    (charTick sC7 iC7).2.targetReached = false ∧
    (charTick sC7 iC7).1.animation = Anim.Idle := by
  norm_num [charTick, mainTick, moveStage, landedFlag, canJumpFlag, runSpeed, sC7, iC7]

/-- C7 amended: on a navigating tick (no manual input, grounded, no landing
lock) with remaining distance > 0.2, slow per-tick displacement, and the
accumulated stuck time reaching at least 2.0 s, the target is cleared, the
stuck timer resets, and the animation returns to Idle; the target-reached
callback fires exactly when the remaining distance is below 1.5 or the stuck
time strictly exceeds 2.0 s. -/
theorem nav_stuck_abandons (s : CharState) (inp : CharInput)
    (hsit : inp.isSitting = false)
    (hdir : (inp.forward || inp.backward || inp.left || inp.right) = false)
    (hjump : inp.jump = false)
    (hnav : s.hasNavTarget = true)
    (hfloor : s.isOnFloor = true) (hwas : s.wasOnFloor = true)
    (hland : s.isLanding = false)
    (hdist : (0.2 : ℚ) < inp.navDistance)
    (hslow : inp.distMoved < 0.01 * runSpeed)
    (hstuck : 2 ≤ s.stuckTime + inp.delta)
    (hcb : inp.hasOnTargetReached = true) :
    (charTick s inp).1.hasNavTarget = false ∧
    (charTick s inp).1.stuckTime = 0 ∧
    (charTick s inp).1.animation = Anim.Idle ∧
    ((charTick s inp).2.targetReached = true ↔
      (inp.navDistance < 1.5 ∨ 2 < s.stuckTime + inp.delta)) := by
  rw [charTick_of_not_sitting s inp hsit]
  have hcond : ¬((0.2 : ℚ) < inp.navDistance ∧ s.stuckTime + inp.delta < 2) := by
    intro hx
    linarith [hx.2]
  simp [mainTick, moveStage, canJumpFlag, landedFlag, hwas, hland, hdir, hjump,
    hnav, hfloor, hcb, hcond, if_pos hslow]

def sW7 : CharState :=
  { isOnFloor := true, wasOnFloor := true, isLanding := false,
    jumpType := Anim.Jump, jumpCooldown := 0, animation := Anim.Run,
    currentRotation := 0, targetRotation := 0, hasNavTarget := true,
    stuckTime := 3/2, lastUpdate := 0 }

def iW7 : CharInput :=
  { forward := false, backward := false, left := false, right := false,
    jump := false, run := false, isSitting := false, hasSitPose := false,
    hasOnStopSitting := false, hasOnUpdate := false, hasOnTargetReached := true,
    delta := 1, now := 0, vy := 0, moveDirX := 0, moveDirZ := 0,
    navDistance := 3, navDirX := 1, navDirZ := 0, distMoved := 0,
    atanMove := 0, atanNav := 0, sitRotation := 0 }

theorem nav_stuck_abandons_witness :
    (charTick sW7 iW7).1.hasNavTarget = false ∧
    (charTick sW7 iW7).2.targetReached = true ∧
    (charTick sW7 iW7).1.animation = Anim.Idle := by
  have h := nav_stuck_abandons sW7 iW7 rfl rfl rfl rfl rfl rfl rfl
    (by norm_num [iW7]) (by norm_num [iW7, runSpeed])
    (by norm_num [sW7, iW7]) rfl
  exact ⟨h.1, h.2.2.2.mpr (Or.inr (by norm_num [sW7, iW7])), h.2.2.1⟩

def sC9 : CharState :=
  { isOnFloor := true, wasOnFloor := true, isLanding := true,
    jumpType := Anim.Jump, jumpCooldown := 0, animation := Anim.land,
    currentRotation := 0, targetRotation := 0, hasNavTarget := false,
    stuckTime := 0, lastUpdate := 0 }

def iC9 : CharInput :=
  { forward := true, backward := false, left := false, right := false,
    jump := false, run := false, isSitting := false, hasSitPose := false,
    hasOnStopSitting := false, hasOnUpdate := false, hasOnTargetReached := false,
    delta := 1/60, now := 0, vy := 0, moveDirX := 0, moveDirZ := 1,
    navDistance := 0, navDirX := 0, navDirZ := 0, distMoved := 0,
    atanMove := 0, atanNav := 0, sitRotation := 0 }

/-- C9 counterexample: grounded, no jump input, forward held — but the
landing lock is active (`isLanding.current = true`), so the tick's animation
is 'land', not Walking or Running (the landing branch, types.ts lines
356-360, precedes manual movement). -/
theorem grounded_move_anim_cex :
    sC9.isOnFloor = true ∧ iC9.jump = false ∧ iC9.forward = true ∧
    (charTick sC9 iC9).1.animation = Anim.land ∧
    Anim.land ≠ Anim.Walking ∧ Anim.land ≠ Anim.Run := by
  refine ⟨rfl, rfl, rfl, ?_, by decide, by decide⟩
  norm_num [charTick, mainTick, moveStage, landedFlag, canJumpFlag, sC9, iC9]

/-- C9 amended: on a grounded tick with no jump input, at least one
directional input, no active landing lock (`isLanding` false and the landing
trigger not firing), and not sitting, the animation after the tick is Running
exactly when the run flag is set and Walking otherwise — never an airborne
label. -/
theorem grounded_move_anim (s : CharState) (inp : CharInput)
    (hsit : inp.isSitting = false)
    (hfloor : s.isOnFloor = true)
    (hjump : inp.jump = false)
    (hdir : (inp.forward || inp.backward || inp.left || inp.right) = true)
    (hland : s.isLanding = false)
    (htrig : landedFlag s inp = false) :
    (charTick s inp).1.animation = (if inp.run then Anim.Run else Anim.Walking) ∧
    (charTick s inp).1.animation ≠ Anim.Jump ∧
    (charTick s inp).1.animation ≠ Anim.RunJump := by
  rw [charTick_of_not_sitting s inp hsit]
  have h1 : (mainTick s inp).1.animation = (if inp.run then Anim.Run else Anim.Walking) := by
    simp [mainTick, moveStage, canJumpFlag, htrig, hland, hjump, hdir, hfloor]
  refine ⟨h1, ?_, ?_⟩ <;> rw [h1] <;> cases inp.run <;> simp

def sW9 : CharState :=
  { isOnFloor := true, wasOnFloor := true, isLanding := false,
    jumpType := Anim.Jump, jumpCooldown := 0, animation := Anim.Idle,
    currentRotation := 0, targetRotation := 0, hasNavTarget := false,
    stuckTime := 0, lastUpdate := 0 }

def iW9 : CharInput :=
  { forward := true, backward := false, left := false, right := false,
    jump := false, run := true, isSitting := false, hasSitPose := false,
    hasOnStopSitting := false, hasOnUpdate := false, hasOnTargetReached := false,
    delta := 1/60, now := 0, vy := 0, moveDirX := 0, moveDirZ := 1,
    navDistance := 0, navDirX := 0, navDirZ := 0, distMoved := 0,
    atanMove := 0, atanNav := 0, sitRotation := 0 }

theorem grounded_move_anim_witness :
    (charTick sW9 iW9).1.animation = Anim.Run := by
  have h := grounded_move_anim sW9 iW9 rfl rfl rfl rfl rfl (by decide)
  simpa using h.1

/-- C10: while sitting with a seat pose and a stand-up callback, any
directional or jump input makes the tick invoke the callback and return at
once: no linear/angular velocity or translation write, no rotation advance,
no network emission, and no other state change (types.ts lines 264-270). -/
theorem sitting_standup_early_return (s : CharState) (inp : CharInput)
    (hsit : inp.isSitting = true) (hpose : inp.hasSitPose = true)
    (hcb : inp.hasOnStopSitting = true)
    (hdir : (inp.forward || inp.backward || inp.left || inp.right || inp.jump) = true) :
    charTick s inp =
      (s, { stoodUp := true, linvelSet := none, angvelSet := false,
            translationSet := false, targetReached := false, emitted := none,
            jumped := false, landed := false }) := by
  simp [charTick, sitTick, hsit, hpose, hcb, hdir]

def sW10 : CharState :=
  { isOnFloor := true, wasOnFloor := true, isLanding := false,
    jumpType := Anim.Jump, jumpCooldown := 0, animation := Anim.Sitting,
    currentRotation := 1, targetRotation := 0, hasNavTarget := false,
    stuckTime := 0, lastUpdate := 0 }

def iW10 : CharInput :=
  { forward := true, backward := false, left := false, right := false,
    jump := false, run := false, isSitting := true, hasSitPose := true,
    hasOnStopSitting := true, hasOnUpdate := true, hasOnTargetReached := false,
    delta := 1/60, now := 1000, vy := 0, moveDirX := 0, moveDirZ := 1,
    navDistance := 0, navDirX := 0, navDirZ := 0, distMoved := 0,
    atanMove := 0, atanNav := 0, sitRotation := 2 }

theorem sitting_standup_early_return_witness :
    (charTick sW10 iW10).2.stoodUp = true ∧
    (charTick sW10 iW10).2.emitted = none ∧
    (charTick sW10 iW10).1.currentRotation = sW10.currentRotation := by
  have h := sitting_standup_early_return sW10 iW10 rfl rfl rfl rfl
  rw [h]
  exact ⟨rfl, rfl, rfl⟩

theorem wrapHi_sub (d : ℚ) : ∃ k : ℤ, wrapHi d = d - 2 * jsPI * k := by
  induction d using wrapHi.induct with
  | case1 d h ih =>
    obtain ⟨k, hk⟩ := ih
    refine ⟨k + 1, ?_⟩
    rw [wrapHi, dif_pos h, hk]
    push_cast
    ring
  | case2 d h => exact ⟨0, by rw [wrapHi, dif_neg h]; ring⟩

theorem wrapLo_sub (d : ℚ) : ∃ k : ℤ, wrapLo d = d - 2 * jsPI * k := by
  induction d using wrapLo.induct with
  | case1 d h ih =>
    obtain ⟨k, hk⟩ := ih
    refine ⟨k - 1, ?_⟩
    rw [wrapLo, dif_pos h, hk]
    push_cast
    ring
  | case2 d h => exact ⟨0, by rw [wrapLo, dif_neg h]; ring⟩

theorem wrapAngle_sub (d : ℚ) : ∃ k : ℤ, wrapAngle d = d - 2 * jsPI * k := by
  obtain ⟨k1, h1⟩ := wrapHi_sub d
  obtain ⟨k2, h2⟩ := wrapLo_sub (wrapHi d)
  refine ⟨k1 + k2, ?_⟩
  rw [wrapAngle, h2, h1]
  push_cast
  ring

/-- C8 counterexample: starting from facing 0 ∈ (-π, π], with target 1 rad,
the source rotation gain 12 and delta-time 1 s ≥ 0, one facing update lands
at 12, far outside (-π, π]: the wrapped quantity is only the difference, the
facing itself is never re-wrapped and `gain × delta` may exceed 1. -/
theorem facing_escape_cex :
    facingStep 0 1 rotationSpeed 1 = 12 ∧ jsPI < 12 ∧
    (-jsPI < 0 ∧ (0 : ℚ) ≤ jsPI) ∧ (0 : ℚ) ≤ 1 := by
  have h1 : wrapHi 1 = 1 := by rw [wrapHi]; norm_num [jsPI]
  have h2 : wrapLo 1 = 1 := by rw [wrapLo]; norm_num [jsPI]
  refine ⟨?_, by norm_num [jsPI], ⟨by norm_num [jsPI], by norm_num [jsPI]⟩, by norm_num⟩
  norm_num [facingStep, wrapAngle, rotationSpeed, h1, h2]

/-- C8 amended: the facing update first reduces the difference between target
and current facing by some whole number of turns into the closed interval
[-π, π] (the loops leave -π itself fixed, so the interval is closed below,
not open), and then adds `wrapped × gain × delta` to the facing; the facing
angle itself is not re-wrapped and is not guaranteed to stay inside
(-π, π]. -/
theorem facing_wrap_range (d : ℚ) :
    (-jsPI ≤ wrapAngle d ∧ wrapAngle d ≤ jsPI) ∧
    (∃ k : ℤ, wrapAngle d = d - 2 * jsPI * k) ∧
    ∀ cur target gain delta : ℚ,
      facingStep cur target gain delta = cur + wrapAngle (target - cur) * gain * delta :=
  ⟨wrapAngle_mem d, wrapAngle_sub d, fun _ _ _ _ => rfl⟩

/-! ### Network reconciler: remote snapshot registry
(client App handlers, src/unnamed/part_001 lines 46-71; relay server,
src/unnamed/part_000 lines 42-50) -/

/-- A (possibly partial) remote player snapshot: the own-properties a
'playerMoved' / 'playerJoined' payload may carry; `none` models an absent
field, so JS spread merges are field-wise. -/
structure PData where
  name : Option String
  x : Option ℚ
  y : Option ℚ
  z : Option ℚ
  rotation : Option ℚ
  animation : Option String
deriving DecidableEq

/-- JS object spread `{ ...a, ...b }`: fields present on `b` win, fields
absent on `b` keep `a`'s value. -/
def spreadMerge (a b : PData) : PData :=
  { name := b.name.or a.name, x := b.x.or a.x, y := b.y.or a.y,
    z := b.z.or a.z, rotation := b.rotation.or a.rotation,
    animation := b.animation.or a.animation }

/-- The registry of remote players (`players` state in App, keyed by session
identifier). -/
abbrev Registry := List (String × PData)

/-- JS `{ ...prev, [id]: v }`: set key `id` to `v`, keep all other keys. -/
def setReg (r : Registry) (id : String) (v : PData) : Registry :=
  if (List.lookup id r).isSome then
    r.map (fun kv => if kv.1 = id then (id, v) else kv)
  else r ++ [(id, v)]

/-- Client 'playerMoved' handler (src/unnamed/part_001 lines 58-63):
`setPlayers(prev => ({ ...prev, [player.id]: { ...prev[player.id], ...player } }))`.
When `prev[player.id]` is undefined the inner spread produces exactly the
event's own fields. -/
def onPlayerMoved (r : Registry) (id : String) (p : PData) : Registry :=
  setReg r id (match List.lookup id r with
    | some prev => spreadMerge prev p
    | none => p)

/-- Client 'playerLeft' handler (src/unnamed/part_001 lines 65-71):
`delete next[id]`. -/
def onPlayerLeft (r : Registry) (id : String) : Registry :=
  r.filter (fun kv => kv.1 ≠ id)

/-- Server 'move' handler (src/unnamed/part_000 lines 42-50): guarded by
`if (players[socket.id])`, so a move from an unknown sender is a no-op. -/
def serverMove (ps : Registry) (sid : String) (d : PData) : Registry :=
  match List.lookup sid ps with
  | some prev => setReg ps sid (spreadMerge prev d)
  | none => ps

def pC1full : PData :=
  { name := some "Bob", x := some 1, y := some 0, z := some 2,
    rotation := some 0, animation := some "Idle" }

def pC1move : PData :=
  { name := none, x := some 5, y := some 0, z := some 2,
    rotation := some 0, animation := some "Run" }

/-- C1 counterexample: after identifier 'a' is removed by a 'left' event, a
late 'moved' event for 'a' re-inserts it into the client registry: the
registry is changed and a snapshot is created from the event's fields — the
handler is not a no-op for unknown identifiers. -/
theorem moved_unknown_resurrects_cex :
    List.lookup "a" (onPlayerLeft [("a", pC1full)] "a") = none ∧
    List.lookup "a"
      (onPlayerMoved (onPlayerLeft [("a", pC1full)] "a") "a" pC1move) = some pC1move ∧
    onPlayerMoved (onPlayerLeft [("a", pC1full)] "a") "a" pC1move ≠
      onPlayerLeft [("a", pC1full)] "a" := by
  decide

theorem lookup_append_self {β : Type} (r : List (String × β)) (id : String)
    (v : β) (h : List.lookup id r = none) :
    List.lookup id (r ++ [(id, v)]) = some v := by
  induction r with
  | nil => simp [List.lookup]
  | cons kv tl ih =>
    obtain ⟨k, w⟩ := kv
    cases hk : (id == k) with
    | true => simp [List.lookup, hk] at h
    | false =>
      simp only [List.cons_append, List.lookup, hk] at h ⊢
      exact ih h

/-- C1 amended: handling a 'moved' event whose identifier is unknown does not
crash, but it does change the registry: the identifier is appended with a
snapshot made of exactly the event's fields.  Only the server-side 'move'
handler treats an unknown identifier as a silent no-op. -/
theorem moved_unknown_inserts (r : Registry) (id : String) (p : PData)
    (h : List.lookup id r = none) :
    onPlayerMoved r id p = r ++ [(id, p)] ∧
    List.lookup id (onPlayerMoved r id p) = some p ∧
    ∀ (ps : Registry) (sid : String) (d : PData),
      List.lookup sid ps = none → serverMove ps sid d = ps := by
  have h1 : onPlayerMoved r id p = r ++ [(id, p)] := by
    simp [onPlayerMoved, setReg, h]
  refine ⟨h1, ?_, ?_⟩
  · rw [h1]
    exact lookup_append_self r id p h
  · intro ps sid d hs
    simp [serverMove, hs]

theorem moved_unknown_inserts_witness :
    List.lookup "a" (onPlayerMoved [("b", pC1full)] "a" pC1move) = some pC1move ∧
    serverMove [("b", pC1full)] "a" pC1move = [("b", pC1full)] := by
  have h := moved_unknown_inserts [("b", pC1full)] "a" pC1move (by decide)
  exact ⟨h.2.1, h.2.2 [("b", pC1full)] "a" pC1move (by decide)⟩

/-! ### Outbound network throttle (types.ts lines 532-541) -/

/-- The throttle folded over a list of tick timestamps (nondecreasing or not):
a tick at time `t` emits iff `t - lastUpdateRef > 50`, and an emission sets
`lastUpdateRef := t`; the result collects the emission times.  Ticks between
emissions leave no trace — there is no queue. -/
def runThrottle : ℚ → List ℚ → List ℚ
  | _, [] => []
  | last, t :: ts =>
    if shouldEmit t last then t :: runThrottle t ts else runThrottle last ts

theorem chain_runThrottle (last : ℚ) (ts : List ℚ) :
    List.Chain (fun a b => 50 < b - a) last (runThrottle last ts) := by
  induction ts generalizing last with
  | nil => exact List.Chain.nil
  | cons t ts ih =>
    rw [runThrottle]
    by_cases h : shouldEmit t last = true
    · rw [if_pos h]
      exact List.Chain.cons (by simpa [shouldEmit] using h) (ih t)
    · rw [if_neg h]
      exact ih last

theorem tick_emit_cond (s : CharState) (inp : CharInput)
    (h : ((charTick s inp).2.emitted).isSome = true) :
    inp.hasOnUpdate = true ∧ 50 < inp.now - s.lastUpdate := by
  have hgoal : (inp.hasOnUpdate && shouldEmit inp.now s.lastUpdate) = true := by
    by_contra hne
    have hd : (inp.hasOnUpdate && shouldEmit inp.now s.lastUpdate) = false :=
      Bool.eq_false_iff.mpr hne
    rw [charTick] at h
    split at h
    · rw [sitTick] at h
      split at h
      · simp at h
      · simp [hd] at h
    · rw [mainTick] at h
      simp [hd] at h
  have hsplit : inp.hasOnUpdate = true ∧ shouldEmit inp.now s.lastUpdate = true := by
    simpa using hgoal
  exact ⟨hsplit.1, by simpa [shouldEmit] using hsplit.2⟩

/-- C2: the outbound throttle.  (i) A single tick emits iff strictly more
than 50 ms have elapsed since the previous emission; (ii) over any sequence
of ticks, consecutive emission times (starting from the previous stamp) are
strictly more than 50 ms apart, so at most one snapshot leaves per 50 ms of
wall-clock time regardless of tick rate; (iii) the full frame callback emits
only when the callback prop is present and strictly more than 50 ms have
elapsed. -/
theorem emit_throttle (last : ℚ) (ts : List ℚ) :
    (∀ t l : ℚ, shouldEmit t l = true ↔ 50 < t - l) ∧
    List.Chain (fun a b => 50 < b - a) last (runThrottle last ts) ∧
    ∀ (s : CharState) (inp : CharInput),
      ((charTick s inp).2.emitted).isSome = true →
        inp.hasOnUpdate = true ∧ 50 < inp.now - s.lastUpdate :=
  ⟨fun t l => by simp [shouldEmit], chain_runThrottle last ts,
    fun s inp h => tick_emit_cond s inp h⟩

def sW2 : CharState :=
  { isOnFloor := true, wasOnFloor := true, isLanding := false,
    jumpType := Anim.Jump, jumpCooldown := 0, animation := Anim.Idle,
    currentRotation := 0, targetRotation := 0, hasNavTarget := false,
    stuckTime := 0, lastUpdate := 0 }

def iW2 : CharInput :=
  { forward := false, backward := false, left := false, right := false,
    jump := false, run := false, isSitting := false, hasSitPose := false,
    hasOnStopSitting := false, hasOnUpdate := true, hasOnTargetReached := false,
    delta := 1/60, now := 100, vy := 0, moveDirX := 0, moveDirZ := 0,
    navDistance := 0, navDirX := 0, navDirZ := 0, distMoved := 0,
    atanMove := 0, atanNav := 0, sitRotation := 0 }

theorem emit_throttle_witness :
    iW2.hasOnUpdate = true ∧ 50 < iW2.now - sW2.lastUpdate := by
  have h := emit_throttle 0 [60, 80, 120]
  exact h.2.2 sW2 iW2
    (by norm_num [charTick, mainTick, moveStage, landedFlag, canJumpFlag,
      shouldEmit, sW2, iW2])

/-! ### WebRTC signaling: early ICE candidate queueing
(ConferenceScreen.tsx, onSignal 'candidate' branch lines 220-231 and
processQueue lines 237-249) -/

/-- Append `cs` to the entry for `id`, creating the entry when absent — the
JS `if (!q[id]) q[id] = []; q[id].push(c)` pattern. -/
def appendAssoc (m : List (String × List ℕ)) (id : String) (cs : List ℕ) :
    List (String × List ℕ) :=
  match List.lookup id m with
  | some old => m.map (fun kv => if kv.1 = id then (id, old ++ cs) else kv)
  | none => m ++ [(id, cs)]

/-- JS `delete m[id]`. -/
def eraseAssoc (m : List (String × List ℕ)) (id : String) :
    List (String × List ℕ) :=
  m.filter (fun kv => kv.1 ≠ id)

/-- Signaling state relevant to candidate handling: which remote identifiers
have had a remote description applied on their peer connection, the
per-identifier early-candidate queues (`iceCandidateQueue.current`), and the
candidates actually added to each peer connection, in order. -/
structure SigState where
  descSet : List String
  queues : List (String × List ℕ)
  applied : List (String × List ℕ)
deriving DecidableEq

/-- The 'candidate' branch of `onSignal` (lines 220-231):
`pc.addIceCandidate` succeeds exactly when the remote description has been
applied; on failure (the `catch`) the candidate is pushed onto the
per-identifier queue, creating it on demand. -/
def recvCandidate (s : SigState) (id : String) (c : ℕ) : SigState :=
  if id ∈ s.descSet then { s with applied := appendAssoc s.applied id [c] }
  else { s with queues := appendAssoc s.queues id [c] }

/-- `processQueue` (lines 237-249): apply every queued candidate in order,
then `delete iceCandidateQueue.current[fromId]`; a missing queue is a
no-op. -/
def processQueue (s : SigState) (id : String) : SigState :=
  match List.lookup id s.queues with
  | some q => { s with applied := appendAssoc s.applied id q,
                       queues := eraseAssoc s.queues id }
  | none => s

/-- Tail of the 'offer' / 'answer' branches (lines 206-218): the remote
description was applied successfully, then `processQueue` runs. -/
def applyRemoteDesc (s : SigState) (id : String) : SigState :=
  processQueue { s with descSet := id :: s.descSet } id

/-- A burst of candidates from `id`, in arrival order. -/
def recvAll (s : SigState) (id : String) (cs : List ℕ) : SigState :=
  cs.foldl (fun t c => recvCandidate t id c) s

theorem lookup_cons_self {β : Type} (k : String) (v : β) (tl : List (String × β)) :
    List.lookup k ((k, v) :: tl) = some v := by
  simp [List.lookup]

theorem lookup_cons_ne {β : Type} (a k : String) (v : β) (tl : List (String × β))
    (h : a ≠ k) : List.lookup a ((k, v) :: tl) = List.lookup a tl := by
  simp [List.lookup, beq_eq_false_iff_ne.mpr h]

theorem lookup_map_set {β : Type} (m : List (String × β)) (id : String) (v : β)
    (h : (List.lookup id m).isSome = true) :
    List.lookup id (m.map (fun kv => if kv.1 = id then (id, v) else kv)) = some v := by
  induction m with
  | nil => simp [List.lookup] at h
  | cons kv tl ih =>
    obtain ⟨k, w⟩ := kv
    rw [List.map_cons]
    by_cases hk : k = id
    · subst hk
      rw [show (if ((k, w) : String × β).1 = k then (k, v) else (k, w)) = (k, v)
        from if_pos rfl]
      exact lookup_cons_self k v _
    · rw [show (if ((k, w) : String × β).1 = id then (id, v) else (k, w)) = (k, w)
        from if_neg hk]
      rw [lookup_cons_ne id k w _ (fun hh => hk hh.symm)] at h ⊢
      exact ih h

theorem lookup_eraseAssoc (m : List (String × List ℕ)) (id : String) :
    List.lookup id (eraseAssoc m id) = none := by
  rw [eraseAssoc]
  induction m with
  | nil => rfl
  | cons kv tl ih =>
    obtain ⟨k, v⟩ := kv
    by_cases hk : k = id
    · subst hk
      simpa [List.filter_cons] using ih
    · simp only [List.filter_cons]
      have hd : (decide ¬((k, v) : String × List ℕ).1 = id) = true := by simp [hk]
      rw [hd, if_pos rfl, lookup_cons_ne id k v _ (fun hh => hk hh.symm)]
      exact ih

theorem appendAssoc_lookup_self (m : List (String × List ℕ)) (id : String)
    (cs : List ℕ) :
    List.lookup id (appendAssoc m id cs) =
      some ((List.lookup id m).getD [] ++ cs) := by
  rw [appendAssoc]
  cases h : List.lookup id m with
  | some old => simpa [h] using lookup_map_set m id (old ++ cs) (by simp [h])
  | none => simpa [h] using lookup_append_self m id cs h

theorem processQueue_of_some (s : SigState) (id : String) (q : List ℕ)
    (h : List.lookup id s.queues = some q) :
    processQueue s id = { s with applied := appendAssoc s.applied id q,
                                 queues := eraseAssoc s.queues id } := by
  simp [processQueue, h]

theorem recvAll_of_some (id : String) (cs : List ℕ) :
    ∀ (s : SigState) (q : List ℕ), id ∉ s.descSet →
      List.lookup id s.queues = some q →
      (recvAll s id cs).descSet = s.descSet ∧
      (recvAll s id cs).applied = s.applied ∧
      List.lookup id (recvAll s id cs).queues = some (q ++ cs) := by
  induction cs with
  | nil => intro s q hd hq; simpa [recvAll] using hq
  | cons c cs ih =>
    intro s q hd hq
    have hstep : recvCandidate s id c =
        { s with queues := appendAssoc s.queues id [c] } := by
      simp [recvCandidate, hd]
    have hrw : recvAll s id (c :: cs) = recvAll (recvCandidate s id c) id cs := rfl
    have hq' : List.lookup id (recvCandidate s id c).queues = some (q ++ [c]) := by
      rw [hstep]
      simpa [hq] using appendAssoc_lookup_self s.queues id [c]
    have hd' : id ∉ (recvCandidate s id c).descSet := by rw [hstep]; exact hd
    obtain ⟨h1, h2, h3⟩ := ih (recvCandidate s id c) (q ++ [c]) hd' hq'
    rw [hrw]
    refine ⟨by rw [h1, hstep], by rw [h2, hstep], ?_⟩
    rw [h3]
    simp

/-- C3: candidates from `id` that arrive while no remote description is set
are all buffered, in arrival order, in the per-identifier queue; once the
remote description is applied, the flush applies exactly that list to the
peer connection, in order, and deletes the queue (so nothing can be applied
twice); flushing when no queue exists for the identifier is a no-op. -/
theorem ice_queue_flush (id : String) (cs : List ℕ) (s0 : SigState)
    (hdesc : id ∉ s0.descSet)
    (happ : List.lookup id s0.applied = none)
    (hq : List.lookup id s0.queues = none) :
    (List.lookup id (recvAll s0 id cs).queues).getD [] = cs ∧
    (List.lookup id (applyRemoteDesc (recvAll s0 id cs) id).applied).getD [] = cs ∧
    List.lookup id (applyRemoteDesc (recvAll s0 id cs) id).queues = none ∧
    ∀ (s : SigState), List.lookup id s.queues = none → processQueue s id = s := by
  have hnoop : ∀ (s : SigState), List.lookup id s.queues = none →
      processQueue s id = s := by
    intro s h
    simp [processQueue, h]
  cases cs with
  | nil =>
    have hr : recvAll s0 id [] = s0 := rfl
    rw [hr]
    have hnone : applyRemoteDesc s0 id = { s0 with descSet := id :: s0.descSet } := by
      rw [applyRemoteDesc]
      exact hnoop _ hq
    rw [hnone]
    exact ⟨by rw [hq]; rfl, by rw [show ({ s0 with descSet := id :: s0.descSet } :
      SigState).applied = s0.applied from rfl, happ]; rfl, hq, hnoop⟩
  | cons c cs' =>
    have hstep : recvCandidate s0 id c =
        { s0 with queues := appendAssoc s0.queues id [c] } := by
      simp [recvCandidate, hdesc]
    have hq1 : List.lookup id (recvCandidate s0 id c).queues = some [c] := by
      rw [hstep]
      simpa [hq] using appendAssoc_lookup_self s0.queues id [c]
    have hd1 : id ∉ (recvCandidate s0 id c).descSet := by rw [hstep]; exact hdesc
    obtain ⟨h1, h2, h3⟩ := recvAll_of_some id cs' (recvCandidate s0 id c) [c] hd1 hq1
    have hrw : recvAll s0 id (c :: cs') = recvAll (recvCandidate s0 id c) id cs' := rfl
    have happ1 : (recvAll s0 id (c :: cs')).applied = s0.applied := by
      rw [hrw, h2, hstep]
    have hq2 : List.lookup id (recvAll s0 id (c :: cs')).queues = some (c :: cs') := by
      rw [hrw, h3]; simp
    have hflush : applyRemoteDesc (recvAll s0 id (c :: cs')) id =
        { descSet := id :: (recvAll s0 id (c :: cs')).descSet,
          queues := eraseAssoc (recvAll s0 id (c :: cs')).queues id,
          applied := appendAssoc (recvAll s0 id (c :: cs')).applied id (c :: cs') } := by
      rw [applyRemoteDesc]
      exact processQueue_of_some _ id (c :: cs') hq2
    refine ⟨by rw [hq2]; rfl, ?_, ?_, hnoop⟩
    · rw [hflush]
      show (List.lookup id
        (appendAssoc (recvAll s0 id (c :: cs')).applied id (c :: cs'))).getD [] = c :: cs'
      rw [appendAssoc_lookup_self, happ1, happ]
      rfl
    · rw [hflush]
      exact lookup_eraseAssoc _ id

theorem ice_queue_flush_witness :
    (List.lookup "a" (recvAll ⟨[], [], []⟩ "a" [5, 7, 9]).queues).getD [] = [5, 7, 9] ∧
    (List.lookup "a"
      (applyRemoteDesc (recvAll ⟨[], [], []⟩ "a" [5, 7, 9]) "a").applied).getD [] = [5, 7, 9] ∧
    processQueue ⟨["a"], [], [("a", [5, 7, 9])]⟩ "a" = ⟨["a"], [], [("a", [5, 7, 9])]⟩ := by
  have h := ice_queue_flush "a" [5, 7, 9] ⟨[], [], []⟩ (by simp) rfl rfl
  exact ⟨h.1, h.2.1, h.2.2.2 _ rfl⟩

/-! ### WebRTC peer-session registry
(ConferenceScreen.tsx: createPeerConnection lines 73-141; system-wide
teardown in onShareEnded lines 188-192 and stopSharing lines 326-329) -/

/-- One `RTCPeerConnection` object: an identity (creation order), the remote
identifier it was created for, and whether `close()` has been called. -/
structure PeerConn where
  handle : ℕ
  tag : String
  isOpen : Bool
deriving DecidableEq

/-- The session-manager state: all connection objects ever constructed, and
`peerConnections.current`, mapping a remote identifier to the handle of its
registered connection. -/
structure PeerState where
  nextHandle : ℕ
  conns : List PeerConn
  reg : List (String × ℕ)
deriving DecidableEq

/-- Generic JS `{ ...m, [id]: v }` on an association list. -/
def setAssoc {β : Type} (m : List (String × β)) (id : String) (v : β) :
    List (String × β) :=
  if (List.lookup id m).isSome then
    m.map (fun kv => if kv.1 = id then (id, v) else kv)
  else m ++ [(id, v)]

/-- `pc.close()` on the connection object with handle `h`. -/
def closeHandle (cs : List PeerConn) (h : ℕ) : List PeerConn :=
  cs.map (fun c => if c.handle = h then { c with isOpen := false } else c)

/-- `createPeerConnection` (lines 73-141), synchronous prefix: close the
connection already registered for the identifier if any (lines 78-80),
construct a fresh `RTCPeerConnection` (line 82), register it (line 83). -/
def createPeerConnection (s : PeerState) (id : String) : PeerState :=
  let conns1 :=
    match List.lookup id s.reg with
    | some h => closeHandle s.conns h
    | none => s.conns
  { nextHandle := s.nextHandle + 1,
    conns := conns1 ++ [⟨s.nextHandle, id, true⟩],
    reg := setAssoc s.reg id s.nextHandle }

/-- `Object.values(peerConnections.current).forEach(pc => pc.close());
peerConnections.current = {}` (lines 188-191 / 326-329). -/
def closeAllPeers (s : PeerState) : PeerState :=
  { s with conns := s.conns.map (fun c => { c with isOpen := false }),
           reg := [] }

/-- The operations that write `peerConnections.current` anywhere in the
component. -/
inductive PeerOp where
  | create (id : String)
  | closeAll

def peerStep (s : PeerState) : PeerOp → PeerState
  | PeerOp.create id => createPeerConnection s id
  | PeerOp.closeAll => closeAllPeers s

def peerInitState : PeerState := ⟨0, [], []⟩

def runPeerOps (ops : List PeerOp) : PeerState :=
  ops.foldl peerStep peerInitState

/-- Number of open connection objects tagged with `id`. -/
def openCount (s : PeerState) (id : String) : ℕ :=
  s.conns.countP (fun c => c.tag == id && c.isOpen)

/-- Registry invariant: all handles were allocated, handles are pairwise
distinct, and every open connection is the one currently registered for its
identifier. -/
def PeerInv (s : PeerState) : Prop :=
  (∀ c ∈ s.conns, c.handle < s.nextHandle) ∧
  (s.conns.map PeerConn.handle).Nodup ∧
  (∀ c ∈ s.conns, c.isOpen = true → List.lookup c.tag s.reg = some c.handle)

theorem lookup_map_set_ne {β : Type} (m : List (String × β)) (id id' : String)
    (v : β) (h : id' ≠ id) :
    List.lookup id' (m.map (fun kv => if kv.1 = id then (id, v) else kv)) =
      List.lookup id' m := by
  induction m with
  | nil => rfl
  | cons kv tl ih =>
    obtain ⟨k, w⟩ := kv
    rw [List.map_cons]
    by_cases hk : k = id
    · subst hk
      rw [show (if ((k, w) : String × β).1 = k then (k, v) else (k, w)) = (k, v)
        from if_pos rfl]
      rw [lookup_cons_ne id' k v _ h, lookup_cons_ne id' k w _ h]
      exact ih
    · rw [show (if ((k, w) : String × β).1 = id then (id, v) else (k, w)) = (k, w)
        from if_neg hk]
      by_cases hk' : id' = k
      · subst hk'
        rw [lookup_cons_self, lookup_cons_self]
      · rw [lookup_cons_ne id' k w _ hk', lookup_cons_ne id' k w _ hk']
        exact ih

theorem lookup_append_ne {β : Type} (m : List (String × β)) (id id' : String)
    (v : β) (h : id' ≠ id) :
    List.lookup id' (m ++ [(id, v)]) = List.lookup id' m := by
  induction m with
  | nil =>
    simp [List.lookup, beq_eq_false_iff_ne.mpr h]
  | cons kv tl ih =>
    obtain ⟨k, w⟩ := kv
    by_cases hk' : id' = k
    · subst hk'
      rw [List.cons_append, lookup_cons_self, lookup_cons_self]
    · rw [List.cons_append, lookup_cons_ne id' k w _ hk', lookup_cons_ne id' k w _ hk']
      exact ih

theorem lookup_setAssoc_self {β : Type} (m : List (String × β)) (id : String)
    (v : β) : List.lookup id (setAssoc m id v) = some v := by
  rw [setAssoc]
  split
  · exact lookup_map_set m id v (by assumption)
  · rename_i hn
    cases h : List.lookup id m with
    | some w => rw [h] at hn; simp at hn
    | none => exact lookup_append_self m id v h

theorem lookup_setAssoc_ne {β : Type} (m : List (String × β)) (id id' : String)
    (v : β) (h : id' ≠ id) :
    List.lookup id' (setAssoc m id v) = List.lookup id' m := by
  rw [setAssoc]
  split
  · exact lookup_map_set_ne m id id' v h
  · exact lookup_append_ne m id id' v h

theorem handle_closeHandle (cs : List PeerConn) (h : ℕ) :
    (closeHandle cs h).map PeerConn.handle = cs.map PeerConn.handle := by
  induction cs with
  | nil => rfl
  | cons c t ih =>
    simp only [closeHandle, List.map_cons] at ih ⊢
    rw [ih]
    congr 1
    by_cases hc : c.handle = h <;> simp [hc]

theorem mem_closeHandle {cs : List PeerConn} {h : ℕ} {c' : PeerConn}
    (hm : c' ∈ closeHandle cs h) :
    ∃ c ∈ cs, c' = if c.handle = h then { c with isOpen := false } else c := by
  rw [closeHandle] at hm
  obtain ⟨c, hc, rfl⟩ := List.mem_map.mp hm
  exact ⟨c, hc, rfl⟩

theorem peerInv_init : PeerInv peerInitState := by
  refine ⟨?_, ?_, ?_⟩ <;> simp [peerInitState]

theorem peerInv_closeAll (s : PeerState) (hs : PeerInv s) :
    PeerInv (closeAllPeers s) := by
  obtain ⟨h1, h2, h3⟩ := hs
  refine ⟨?_, ?_, ?_⟩
  · intro c hc
    obtain ⟨c0, hc0, rfl⟩ := List.mem_map.mp hc
    exact h1 c0 hc0
  · show ((s.conns.map _).map PeerConn.handle).Nodup
    rw [List.map_map]
    exact h2
  · intro c hc hopen
    obtain ⟨c0, hc0, rfl⟩ := List.mem_map.mp hc
    simp at hopen

theorem peerInv_create (s : PeerState) (hs : PeerInv s) (id : String) :
    PeerInv (createPeerConnection s id) := by
  obtain ⟨h1, h2, h3⟩ := hs
  cases hreg : List.lookup id s.reg with
  | none =>
    have hred : createPeerConnection s id =
        { nextHandle := s.nextHandle + 1,
          conns := s.conns ++ [⟨s.nextHandle, id, true⟩],
          reg := setAssoc s.reg id s.nextHandle } := by
      simp [createPeerConnection, hreg]
    rw [hred]
    refine ⟨?_, ?_, ?_⟩
    · intro c hc
      rcases List.mem_append.mp hc with hc | hc
      · exact Nat.lt_succ_of_lt (h1 c hc)
      · simp at hc
        rw [hc]
        exact Nat.lt_succ_self _
    · show ((s.conns ++ [(⟨s.nextHandle, id, true⟩ : PeerConn)]).map PeerConn.handle).Nodup
      rw [List.map_append]
      rw [List.nodup_append]
      refine ⟨h2, by simp, ?_⟩
      intro a ha
      obtain ⟨c, hc, rfl⟩ := List.mem_map.mp ha
      have := h1 c hc
      simp only [List.map_cons, List.map_nil]
      intro hb
      rw [List.mem_singleton] at hb
      omega
    · intro c hc hopen
      rcases List.mem_append.mp hc with hc | hc
      · have hl := h3 c hc hopen
        have hne : c.tag ≠ id := by
          intro he
          rw [he, hreg] at hl
          exact Option.noConfusion hl
        rw [lookup_setAssoc_ne s.reg id c.tag s.nextHandle hne]
        exact hl
      · simp at hc
        rw [hc]
        exact lookup_setAssoc_self s.reg id s.nextHandle
  | some hh =>
    have hred : createPeerConnection s id =
        { nextHandle := s.nextHandle + 1,
          conns := closeHandle s.conns hh ++ [⟨s.nextHandle, id, true⟩],
          reg := setAssoc s.reg id s.nextHandle } := by
      simp [createPeerConnection, hreg]
    rw [hred]
    refine ⟨?_, ?_, ?_⟩
    · intro c hc
      rcases List.mem_append.mp hc with hc | hc
      · obtain ⟨c0, hc0, rfl⟩ := mem_closeHandle hc
        have := h1 c0 hc0
        by_cases hcc : c0.handle = hh <;> simp [hcc] <;> omega
      · simp at hc
        rw [hc]
        exact Nat.lt_succ_self _
    · show ((closeHandle s.conns hh ++ [(⟨s.nextHandle, id, true⟩ : PeerConn)]).map PeerConn.handle).Nodup
      rw [List.map_append, handle_closeHandle, List.nodup_append]
      refine ⟨h2, by simp, ?_⟩
      intro a ha
      obtain ⟨c, hc, rfl⟩ := List.mem_map.mp ha
      have := h1 c hc
      simp only [List.map_cons, List.map_nil]
      intro hb
      rw [List.mem_singleton] at hb
      omega
    · intro c hc hopen
      rcases List.mem_append.mp hc with hc | hc
      · obtain ⟨c0, hc0, hif⟩ := mem_closeHandle hc
        by_cases hcc : c0.handle = hh
        · rw [if_pos hcc] at hif
          rw [hif] at hopen
          simp at hopen
        · rw [if_neg hcc] at hif
          rw [hif] at hopen ⊢
          have hl := h3 c0 hc0 hopen
          have hne : c0.tag ≠ id := by
            intro he
            rw [he, hreg] at hl
            exact hcc (Option.some.inj hl).symm
          rw [lookup_setAssoc_ne s.reg id c0.tag s.nextHandle hne]
          exact hl
      · simp at hc
        rw [hc]
        exact lookup_setAssoc_self s.reg id s.nextHandle

theorem peerInv_run (ops : List PeerOp) : PeerInv (runPeerOps ops) := by
  rw [runPeerOps]
  have key : ∀ (s : PeerState), PeerInv s → PeerInv (ops.foldl peerStep s) := by
    induction ops with
    | nil => intro s hs; exact hs
    | cons op t ih =>
      intro s hs
      rw [List.foldl_cons]
      apply ih
      cases op with
      | create id => exact peerInv_create s hs id
      | closeAll => exact peerInv_closeAll s hs
  exact key peerInitState peerInv_init

theorem length_le_one_of_const {l : List ℕ} (hnd : l.Nodup) (x : ℕ)
    (hall : ∀ a ∈ l, a = x) : l.length ≤ 1 := by
  cases l with
  | nil => simp
  | cons a t =>
    cases t with
    | nil => simp
    | cons b t2 =>
      exfalso
      have ha := hall a (by simp)
      have hb := hall b (by simp)
      rw [List.nodup_cons] at hnd
      exact hnd.1 (by rw [ha, ← hb]; exact List.mem_cons_self b t2)

theorem openCount_le_one (s : PeerState) (hs : PeerInv s) (id : String) :
    openCount s id ≤ 1 := by
  obtain ⟨h1, h2, h3⟩ := hs
  rw [openCount, List.countP_eq_length_filter]
  cases hreg : List.lookup id s.reg with
  | none =>
    have hz : s.conns.filter (fun c => c.tag == id && c.isOpen) = [] := by
      rw [List.filter_eq_nil_iff]
      intro c hc hp
      have hp2 : c.tag = id ∧ c.isOpen = true := by simpa using hp
      have := h3 c hc hp2.2
      rw [hp2.1, hreg] at this
      exact Option.noConfusion this
    rw [hz]
    simp
  | some hh =>
    have hnd : ((s.conns.filter (fun c => c.tag == id && c.isOpen)).map
        PeerConn.handle).Nodup :=
      List.Nodup.sublist (List.Sublist.map PeerConn.handle
        (List.filter_sublist s.conns)) h2
    have hall : ∀ a ∈ (s.conns.filter (fun c => c.tag == id && c.isOpen)).map
        PeerConn.handle, a = hh := by
      intro a ha
      obtain ⟨c, hc, rfl⟩ := List.mem_map.mp ha
      have hmem := List.mem_of_mem_filter hc
      have hp2 : c.tag = id ∧ c.isOpen = true := by
        simpa using List.of_mem_filter hc
      have := h3 c hmem hp2.2
      rw [hp2.1, hreg] at this
      exact (Option.some.inj this).symm
    have := length_le_one_of_const hnd hh hall
    simpa using this

theorem openCount_create (s : PeerState) (hs : PeerInv s) (id : String) :
    openCount (createPeerConnection s id) id = 1 := by
  obtain ⟨h1, h2, h3⟩ := hs
  cases hreg : List.lookup id s.reg with
  | none =>
    have hred : createPeerConnection s id =
        { nextHandle := s.nextHandle + 1,
          conns := s.conns ++ [⟨s.nextHandle, id, true⟩],
          reg := setAssoc s.reg id s.nextHandle } := by
      simp [createPeerConnection, hreg]
    rw [hred, openCount]
    show List.countP (fun c => c.tag == id && c.isOpen)
      (s.conns ++ [(⟨s.nextHandle, id, true⟩ : PeerConn)]) = 1
    rw [List.countP_append]
    have hz : List.countP (fun c => c.tag == id && c.isOpen) s.conns = 0 := by
      rw [List.countP_eq_zero]
      intro c hc hp
      have hp2 : c.tag = id ∧ c.isOpen = true := by simpa using hp
      have := h3 c hc hp2.2
      rw [hp2.1, hreg] at this
      exact Option.noConfusion this
    rw [hz]
    simp [List.countP_cons]
  | some hh =>
    have hred : createPeerConnection s id =
        { nextHandle := s.nextHandle + 1,
          conns := closeHandle s.conns hh ++ [⟨s.nextHandle, id, true⟩],
          reg := setAssoc s.reg id s.nextHandle } := by
      simp [createPeerConnection, hreg]
    rw [hred, openCount]
    show List.countP (fun c => c.tag == id && c.isOpen)
      (closeHandle s.conns hh ++ [(⟨s.nextHandle, id, true⟩ : PeerConn)]) = 1
    rw [List.countP_append]
    have hz : List.countP (fun c => c.tag == id && c.isOpen)
        (closeHandle s.conns hh) = 0 := by
      rw [List.countP_eq_zero]
      intro c hc hp
      have hp2 : c.tag = id ∧ c.isOpen = true := by simpa using hp
      obtain ⟨c0, hc0, hif⟩ := mem_closeHandle hc
      by_cases hcc : c0.handle = hh
      · rw [if_pos hcc] at hif
        rw [hif] at hp2
        simp at hp2
      · rw [if_neg hcc] at hif
        rw [hif] at hp2
        have := h3 c0 hc0 hp2.2
        rw [hp2.1, hreg] at this
        exact hcc (Option.some.inj this).symm
    rw [hz]
    simp [List.countP_cons]

/-- C4: starting from an empty session registry, after any sequence of
`createPeerConnection` / close-all-teardown operations, at most one open
connection object exists per remote identifier, and immediately after a
`createPeerConnection` for an identifier exactly one open connection exists
for it (the prior one, if any, having been closed by the lines 78-80
cleanup). -/
theorem peer_single_session (ops : List PeerOp) (id : String) :
    openCount (runPeerOps ops) id ≤ 1 ∧
    openCount (runPeerOps (ops ++ [PeerOp.create id])) id = 1 := by
  refine ⟨openCount_le_one _ (peerInv_run ops) id, ?_⟩
  rw [runPeerOps, List.foldl_append]
  simp only [List.foldl_cons, List.foldl_nil]
  exact openCount_create _ (peerInv_run ops) id
